import Mathlib

/-!
Verification of the snake game in `main.cpp`.

The logical core of the program is embedded shallowly:
  positions are pairs of integers (`sf::Vector2i`), the snake body is a
  `List` of positions (the `std::deque`, front first), the random number
  generator feeding `spawnFood` is made explicit as a list of candidate
  draws, real-valued quantities (`moveDelay`, a C `float`) are modelled as
  rationals, and file contents are passed explicitly as `Option String`.
-/

namespace SnakeGame

/-- Positions: `sf::Vector2i`, an integer pair with componentwise equality. -/
abbrev Position : Type := ℤ × ℤ

/-- Grid width: `const int COLS = 40;`. -/
def COLS : ℤ := 40

/-- Grid height: `const int ROWS = 30;`. -/
def ROWS : ℤ := 30

/-- The snake: `std::deque<sf::Vector2i> body` (front first),
`sf::Vector2i dir{1,0}` and `bool grow = false`. -/
structure Snake where
  body : List Position
  dir : Position := (1, 0)
  grow : Bool := false
  deriving DecidableEq, Repr

namespace Snake

/-- The current head, `body.front()`.  The body is nonempty whenever the
C++ code calls `front()` (the constructor pushes one segment). -/
def headPos (s : Snake) : Position := s.body.headD (0, 0)

/-- `nextHead`: `return body.front() + dir;`. -/
def nextHead (s : Snake) : Position := s.headPos + s.dir

/-- `move`: `body.push_front(nextHead()); if (!grow) body.pop_back(); else grow = false;`. -/
def move (s : Snake) : Snake :=
  let b := s.nextHead :: s.body
  if s.grow then { body := b, dir := s.dir, grow := false }
  else { body := b.dropLast, dir := s.dir, grow := s.grow }

/-- `hitsSelf`: scans indices `1 ≤ i < body.size()` for a segment equal to
`body.front()`.  With an empty body the loop does not run and the result
is `false`. -/
def hitsSelf (s : Snake) : Bool :=
  match s.body with
  | [] => false
  | h :: t => t.any (fun b => b = h)

/-- `occupies`: linear membership scan over the body. -/
def occupies (s : Snake) (p : Position) : Bool :=
  s.body.any (fun b => b = p)

end Snake

/-- Membership in the grid, i.e. the negation of the wall-collision test
`h.x < 0 || h.x >= COLS || h.y < 0 || h.y >= ROWS` in the tick body. -/
def inGrid (p : Position) : Bool :=
  decide (0 ≤ p.1) && decide (p.1 < COLS) && decide (0 ≤ p.2) && decide (p.2 < ROWS)

/-- `spawnFood`: returns `{-1,-1}` when `snake.body.size() >= COLS * ROWS`
(full board); otherwise draws uniform candidates and retries while the
candidate is occupied.  The RNG is made explicit: `draws` is the stream of
candidates produced by `dx(rng), dy(rng)` (each lies in
`[0, COLS) × [0, ROWS)`), and the result is the first unoccupied draw.
The `getD` default covers the case where `draws` is exhausted with every
candidate occupied, in which case the C++ do-while would keep drawing;
theorems supply a stream containing a free cell (an event of
probability 1 whenever a free cell exists). -/
def spawnFood (s : Snake) (draws : List Position) : Position :=
  if COLS * ROWS ≤ (s.body.length : ℤ) then (-1, -1)
  else (draws.find? (fun p => ! s.occupies p)).getD (-1, -1)

/-- Characters `operator>>` skips as whitespace before reading an `int`. -/
def isStreamSpace (c : Char) : Bool :=
  c = ' ' || c = '\t' || c = '\n' || c = '\r' || c = '\x0b' || c = '\x0c'

/-- Reads a maximal run of leading decimal digits; fails when there are
none, as `operator>>(int)` does. -/
def readDigits (cs : List Char) : Option ℕ :=
  let ds := cs.takeWhile (fun c => c.isDigit)
  if ds.isEmpty then none
  else some (ds.foldl (fun acc c => acc * 10 + (c.toNat - 48)) 0)

/-- Formatted extraction `in >> h` for an `int`: skip whitespace, then an
optional sign followed by at least one decimal digit; trailing characters
are left unread.  `none` models extraction failure. -/
def istreamReadInt (s : String) : Option ℤ :=
  match s.toList.dropWhile isStreamSpace with
  | '-' :: rest => (readDigits rest).map (fun n => -(n : ℤ))
  | '+' :: rest => (readDigits rest).map (fun n => (n : ℤ))
  | cs => (readDigits cs).map (fun n => (n : ℤ))

/-- `loadHighscore`: `int h = 0; if (in >> h) return h; return 0;`.
`file` is the content of `highscore.txt`, or `none` when the file cannot
be opened (extraction then fails on the failed stream). -/
def loadHighscore (file : Option String) : ℤ :=
  match file with
  | none => 0
  | some content =>
    match istreamReadInt content with
    | some h => h
    | none => 0

/-- The four directional intents (the arrow keys; the W/S/A/D branches in
the event loop are character-for-character identical to them). -/
inductive Key where
  | up
  | down
  | left
  | right
  deriving DecidableEq, Repr

/-- The heading vector a key requests: Up writes `{0,-1}`, Down `{0,1}`,
Left `{-1,0}`, Right `{1,0}`. -/
def requestDir : Key → Position
  | .up => (0, -1)
  | .down => (0, 1)
  | .left => (-1, 0)
  | .right => (1, 0)

/-- The key handler, one branch per key exactly as in the event loop:
`if (ev.key.code == Up) { if (snake.dir != sf::Vector2i(0,1)) snake.dir = {0,-1}; }`
and so on. -/
def applyKeyDir (dir : Position) : Key → Position
  | .up => if dir ≠ ((0 : ℤ), (1 : ℤ)) then (0, -1) else dir
  | .down => if dir ≠ ((0 : ℤ), (-1 : ℤ)) then (0, 1) else dir
  | .left => if dir ≠ ((1 : ℤ), (0 : ℤ)) then (-1, 0) else dir
  | .right => if dir ≠ ((-1 : ℤ), (0 : ℤ)) then (1, 0) else dir

/-- The clamped speed-up applied on eating:
`moveDelay = std::max(0.03f, moveDelay * 0.95f);` (floats as rationals). -/
def nextDelay (d : ℚ) : ℚ := max (3 / 100) (d * (95 / 100))

/-- The mutable game state of `main`: the snake, the food cell (with
`(-1,-1)` as the no-food sentinel), `float moveDelay`, `bool gameOver`
and `int score`. -/
structure GameState where
  snake : Snake
  food : Position
  moveDelay : ℚ
  gameOver : Bool
  score : ℤ
  deriving DecidableEq, Repr

/-- The game-over flag right after `snake.move()` in the tick body: the
wall-collision test `h.x < 0 || h.x >= COLS || h.y < 0 || h.y >= ROWS`
followed by `if (snake.hitsSelf()) gameOver = true;`, applied to the
already-moved snake. -/
def postMoveOver (s : Snake) : Bool := ! inGrid s.headPos || s.hitsSelf

/-- One simulation step: the body of `if (!gameOver && acc >= moveDelay)`.
The pacing accumulator is external; `tick` fires only when the state is
not game over.  `draws` is the RNG stream handed to `spawnFood` should
food be eaten this tick.  The eating branch `if (!gameOver && h == food)`
sets the growth flag, adds 10 to the score, speeds up, and re-places the
food, passing `spawnFood` the snake with the flag already set. -/
def tick (g : GameState) (draws : List Position) : GameState :=
  if g.gameOver then g
  else if postMoveOver g.snake.move = false ∧ g.snake.move.headPos = g.food then
    { snake := { g.snake.move with grow := true }
      food := spawnFood { g.snake.move with grow := true } draws
      moveDelay := nextDelay g.moveDelay
      gameOver := false
      score := g.score + 10 }
  else
    { g with snake := g.snake.move, gameOver := postMoveOver g.snake.move }

/-- A tick consumes the food iff the state is not game over and the moved
head survives both collision checks and lands on the food cell. -/
def eats (g : GameState) : Prop :=
  g.gameOver = false ∧ postMoveOver g.snake.move = false ∧
    g.snake.move.headPos = g.food

instance (g : GameState) : Decidable (eats g) := by
  rw [eats]; infer_instance

/-- The fresh-session state built by `resetGame` and the surrounding
initialisation: snake of length 1 at `{COLS/2, ROWS/2}` heading `{1,0}`,
`moveDelay = 0.12f`, score 0, not game over.  `food` is the value
returned by the initial `spawnFood` call. -/
def initialState (food : Position) : GameState :=
  { snake := { body := [(20, 15)], dir := (1, 0), grow := false }
    food := food
    moveDelay := 12 / 100
    gameOver := false
    score := 0 }

/-- Runs `n` consecutive ticks, consuming one RNG stream per tick. -/
def runTicks : ℕ → (ℕ → List Position) → GameState → GameState
  | 0, _, g => g
  | n + 1, ds, g => runTicks n (fun k => ds (k + 1)) (tick g (ds 0))

/-- A fresh-session-shaped state whose single-segment snake sits at
`(x, 15)` heading right; `mkRight 20 food` is `initialState food`. -/
def mkRight (x : ℤ) (food : Position) : GameState :=
  { snake := { body := [(x, 15)], dir := (1, 0), grow := false }
    food := food
    moveDelay := 12 / 100
    gameOver := false
    score := 0 }

/-- The state visible to the render part of the frame: the game state,
the in-memory `int highscore`, and the log of values passed to
`saveHighscore` so far. -/
structure App where
  game : GameState
  highscore : ℤ
  saves : List ℤ
  deriving DecidableEq, Repr

/-- The game-over block executed on every rendered frame:
`if (gameOver) { if (score > highscore) { highscore = score; saveHighscore(highscore); } ... }`. -/
def renderStep (a : App) : App :=
  if a.game.gameOver then
    if a.highscore < a.game.score then
      { a with highscore := a.game.score, saves := a.saves ++ [a.game.score] }
    else a
  else a

/-- One iteration of the main loop between two renders, with no key
events: the paced tick (a no-op when the accumulator has not filled or
the game is over) followed by the render block. -/
def frame (a : App) (draws : List Position) (tickDue : Bool) : App :=
  renderStep { a with game := if tickDue then tick a.game draws else a.game }

/-- Runs `n` consecutive frames with no key events. -/
def runFrames : ℕ → (ℕ → List Position × Bool) → App → App
  | 0, _, a => a
  | n + 1, ds, a =>
    runFrames n (fun k => ds (k + 1)) (frame a (ds 0).1 (ds 0).2)

/-- C5: for every current heading and heading-change request, a request
that is the exact reverse of the current heading leaves the heading
unchanged, and any other request among the four axis directions replaces
the heading with exactly the requested vector. -/
theorem heading_change_spec (dir : Position) (k : Key) :
    applyKeyDir dir k = if dir = -(requestDir k) then dir else requestDir k := by
  cases k <;>
    simp only [applyKeyDir, requestDir, ne_eq, ite_not] <;>
    norm_num [Prod.ext_iff]

/-- C6: `move` with the growth flag clear preserves body length; with the
flag set it increases the length by exactly 1 and resets the flag; in
both cases the new head, inserted at the front, is the old head plus the
heading. -/
theorem move_spec (s : Snake) (hne : s.body ≠ []) :
    (s.grow = false → s.move.body.length = s.body.length) ∧
    (s.grow = true → s.move.body.length = s.body.length + 1) ∧
    s.move.grow = false ∧
    s.move.body.head? = some (s.headPos + s.dir) := by
  obtain ⟨body, dir, grow⟩ := s
  cases body with
  | nil => exact absurd rfl hne
  | cons b t =>
    cases grow with
    | false =>
      refine ⟨fun _ => ?_, fun h => by simp at h, rfl, ?_⟩
      · simp [Snake.move, List.length_dropLast]
      · simp [Snake.move, Snake.nextHead, Snake.headPos, List.dropLast_cons₂]
    | true =>
      exact ⟨fun h => by simp at h, fun _ => by simp [Snake.move], rfl, rfl⟩

/-- C7: self-collision is reported true iff the head (index 0) equals a
body segment at some index 1 or greater; in particular, after a
non-growth advance whose new head is the cell the tail just vacated, no
self-collision is reported. -/
theorem hitsSelf_spec (s : Snake) :
    (s.hitsSelf = true ↔
      ∃ i : ℕ, 0 < i ∧ ∃ hi : i < s.body.length, s.body.get ⟨i, hi⟩ = s.headPos) ∧
    (s.body.Nodup → s.grow = false → ∀ hne : s.body ≠ [],
      s.nextHead = s.body.getLast hne → s.move.hitsSelf = false) := by
  constructor
  · obtain ⟨body, dir, grow⟩ := s
    cases body with
    | nil => simp [Snake.hitsSelf]
    | cons b t =>
      simp only [Snake.hitsSelf, Snake.headPos, List.headD_cons, List.any_eq_true,
        decide_eq_true_eq]
      constructor
      · rintro ⟨x, hx, rfl⟩
        obtain ⟨⟨j, hj⟩, rfl⟩ := List.mem_iff_get.mp hx
        exact ⟨j + 1, Nat.succ_pos j, by simpa using hj, rfl⟩
      · rintro ⟨i, hi, hlt, hget⟩
        cases i with
        | zero => exact absurd hi (by simp)
        | succ j =>
          rw [List.get_cons_succ] at hget
          exact ⟨_, List.get_mem _ _ _, hget⟩
  · intro hnd hg hne hlast
    have hbody : s.move.body = s.nextHead :: s.body.dropLast := by
      rw [Snake.move, if_neg (by simp [hg])]
      obtain ⟨body, dir, grow⟩ := s
      cases body with
      | nil => exact absurd rfl hne
      | cons b t => simp [List.dropLast_cons₂]
    have hnotmem : s.nextHead ∉ s.body.dropLast := by
      rw [hlast]
      intro hmem
      have hsplit := List.dropLast_append_getLast hne
      rw [← hsplit] at hnd
      have hd := List.disjoint_of_nodup_append hnd
      exact hd hmem (List.mem_singleton.mpr rfl)
    rw [Snake.hitsSelf, hbody]
    simp only [List.any_eq_false, decide_eq_true_eq]
    intro x hx hxe
    exact hnotmem (hxe ▸ hx)

/-- C7 witness: a four-cell snake bent into a square whose next head is
exactly the tail cell about to be vacated reports no self-collision after
the advance. -/
theorem hitsSelf_spec_witness :
    (Snake.mk [((0 : ℤ), (0 : ℤ)), (1, 0), (1, 1), (0, 1)] (0, 1) false).move.hitsSelf
      = false :=
  (hitsSelf_spec (Snake.mk [((0 : ℤ), (0 : ℤ)), (1, 0), (1, 1), (0, 1)] (0, 1) false)).2
    (by decide) rfl (by decide) (by decide)

/-- C6 witness: a two-segment snake at `(5,5),(4,5)` heading right, with
the growth flag clear, keeps length 2 and gets head `(6,5)`. -/
theorem move_spec_witness :
    (Snake.mk [((5 : ℤ), (5 : ℤ)), (4, 5)] (1, 0) false).move.body.length = 2 ∧
    (Snake.mk [((5 : ℤ), (5 : ℤ)), (4, 5)] (1, 0) false).move.body.head?
      = some (6, 5) := by
  have h := move_spec (Snake.mk [((5 : ℤ), (5 : ℤ)), (4, 5)] (1, 0) false) (by decide)
  exact ⟨(h.1 rfl).trans (by decide), h.2.2.2.trans (by decide)⟩

/-- C9: starting from heading `(1,0)`, the request Up then the request
Left are each accepted by the anti-reversal guard (which compares against
the current heading only), yet their net effect reverses the original
heading to `(-1,0)`. -/
theorem double_turn_reversal :
    ∃ k1 k2 : Key,
      ((1 : ℤ), (0 : ℤ)) ≠ -(requestDir k1) ∧
      requestDir k1 ≠ -(requestDir k2) ∧
      applyKeyDir (applyKeyDir ((1 : ℤ), (0 : ℤ)) k1) k2 = -((1 : ℤ), (0 : ℤ)) ∧
      applyKeyDir ((1 : ℤ), (0 : ℤ)) k1 = requestDir k1 ∧
      applyKeyDir (requestDir k1) k2 = requestDir k2 :=
  ⟨Key.up, Key.left, by decide, by decide, by decide, by decide, by decide⟩

/-- Helper: `move` always leaves the growth flag clear — either the flag
was set and the growth branch resets it, or it was already clear. -/
theorem move_grow_false (s : Snake) : s.move.grow = false := by
  rw [Snake.move]
  by_cases h : s.grow
  · rw [if_pos h]
  · rw [if_neg h]
    simpa using h

/-- C1: `spawnFood` never returns a snake-occupied position; it returns
the no-food sentinel iff the snake's length equals `COLS * ROWS`; and for
every snake shorter than that, the result is an unoccupied in-grid cell.
The hypotheses record that the RNG draws lie in the grid (they are
produced by `uniform_int_distribution` over `[0,COLS) × [0,ROWS)`) and
that the rejection sampling terminates, i.e. some draw is unoccupied — an
event of probability 1 whenever the board is not full. -/
theorem spawnFood_spec (s : Snake) (draws : List Position)
    (hdraws : ∀ p ∈ draws, inGrid p = true)
    (hlen : (s.body.length : ℤ) ≤ COLS * ROWS)
    (hfree : (s.body.length : ℤ) < COLS * ROWS →
      ∃ p ∈ draws, s.occupies p = false) :
    (spawnFood s draws = (-1, -1) ↔ (s.body.length : ℤ) = COLS * ROWS) ∧
    ((s.body.length : ℤ) < COLS * ROWS →
      s.occupies (spawnFood s draws) = false ∧
      inGrid (spawnFood s draws) = true) := by
  by_cases hfull : COLS * ROWS ≤ (s.body.length : ℤ)
  · have heq : (s.body.length : ℤ) = COLS * ROWS := le_antisymm hlen hfull
    rw [spawnFood, if_pos hfull]
    exact ⟨⟨fun _ => heq, fun _ => rfl⟩, fun hlt => absurd heq (ne_of_lt hlt)⟩
  · push_neg at hfull
    obtain ⟨q, hqmem, hqocc⟩ := hfree hfull
    obtain ⟨r, hr⟩ : ∃ r, draws.find? (fun p => ! s.occupies p) = some r := by
      refine Option.isSome_iff_exists.mp ?_
      rw [List.find?_isSome]
      exact ⟨q, hqmem, by simp [hqocc]⟩
    have hrocc : s.occupies r = false := by simpa using List.find?_some hr
    have hrgrid : inGrid r = true := hdraws r (List.mem_of_find?_eq_some hr)
    have hval : spawnFood s draws = r := by
      rw [spawnFood, if_neg (not_le.mpr hfull), hr, Option.getD_some]
    refine ⟨⟨fun hr11 => ?_, fun heq => absurd heq (ne_of_lt hfull)⟩,
      fun _ => by rw [hval]; exact ⟨hrocc, hrgrid⟩⟩
    rw [hval] at hr11
    rw [hr11] at hrgrid
    exact absurd hrgrid (by decide)

/-- C1 witness: a one-segment snake at `(5,5)` with draws
`[(5,5), (2,3)]` gets the unoccupied in-grid cell `(2,3)`. -/
theorem spawnFood_spec_witness :
    (Snake.mk [((5 : ℤ), (5 : ℤ))] (1, 0) false).occupies
        (spawnFood (Snake.mk [((5 : ℤ), (5 : ℤ))] (1, 0) false)
          [((5 : ℤ), (5 : ℤ)), (2, 3)]) = false ∧
    inGrid (spawnFood (Snake.mk [((5 : ℤ), (5 : ℤ))] (1, 0) false)
        [((5 : ℤ), (5 : ℤ)), (2, 3)]) = true :=
  (spawnFood_spec (Snake.mk [((5 : ℤ), (5 : ℤ))] (1, 0) false)
    [((5 : ℤ), (5 : ℤ)), (2, 3)] (by decide) (by decide)
    (fun _ => ⟨(2, 3), by decide, by decide⟩)).2 (by decide)

/-- C8: `loadHighscore` returns the persisted integer when the file
exists and its content parses as a decimal integer; in every other case
(missing file, unparsable content) it returns 0; being a total function
it never fails the caller. -/
theorem loadHighscore_spec :
    loadHighscore none = 0 ∧
    (∀ s h, istreamReadInt s = some h → loadHighscore (some s) = h) ∧
    (∀ s, istreamReadInt s = none → loadHighscore (some s) = 0) := by
  refine ⟨rfl, fun s h hp => ?_, fun s hp => ?_⟩
  · simp [loadHighscore, hp]
  · simp [loadHighscore, hp]

/-- C8 witness: content `"150"` loads as 150, content `" -7x"` as -7,
unparsable `"abc"` and a missing file both load as 0. -/
theorem loadHighscore_spec_witness :
    loadHighscore (some "150") = 150 ∧
    loadHighscore (some " -7x") = -7 ∧
    loadHighscore (some "abc") = 0 ∧
    loadHighscore none = 0 :=
  ⟨loadHighscore_spec.2.1 "150" 150 (by decide),
   loadHighscore_spec.2.1 " -7x" (-7) (by decide),
   loadHighscore_spec.2.2 "abc" (by decide),
   loadHighscore_spec.1⟩

/-- C10: while the food is the sentinel `(-1,-1)` no tick can consume it:
a head equal to the sentinel has a negative coordinate, so the
wall-collision flag is already set when the eating guard
`!gameOver && h == food` runs; hence score, tick interval and food are
unchanged, and the growth flag is not set by the eating rule (after a
non-game-over tick it is clear). -/
theorem food_none_no_eat (g : GameState) (draws : List Position)
    (hf : g.food = (-1, -1)) :
    (tick g draws).score = g.score ∧
    (tick g draws).moveDelay = g.moveDelay ∧
    (tick g draws).food = g.food ∧
    (g.gameOver = false → (tick g draws).snake.grow = false) := by
  by_cases hgo : g.gameOver
  · rw [tick, if_pos hgo]
    exact ⟨rfl, rfl, rfl, fun h => absurd hgo (by simp [h])⟩
  · have hcond : ¬ (postMoveOver g.snake.move = false ∧
        g.snake.move.headPos = g.food) := by
      rintro ⟨hov, hh⟩
      rw [hf] at hh
      have hgrid : inGrid g.snake.move.headPos = false := by rw [hh]; decide
      rw [postMoveOver, hgrid] at hov
      simp at hov
    rw [tick, if_neg hgo, if_neg hcond]
    exact ⟨rfl, rfl, rfl, fun _ => move_grow_false g.snake⟩

/-- C10 witness: with the food at `(-1,-1)` a tick from a playing state
leaves score and growth flag untouched. -/
theorem food_none_no_eat_witness :
    (tick (GameState.mk (Snake.mk [((5 : ℤ), (5 : ℤ))] (1, 0) false)
        (-1, -1) (12 / 100) false 0) []).score = 0 ∧
    (tick (GameState.mk (Snake.mk [((5 : ℤ), (5 : ℤ))] (1, 0) false)
        (-1, -1) (12 / 100) false 0) []).snake.grow = false :=
  ⟨(food_none_no_eat (GameState.mk (Snake.mk [((5 : ℤ), (5 : ℤ))] (1, 0) false)
      (-1, -1) (12 / 100) false 0) [] rfl).1,
   (food_none_no_eat (GameState.mk (Snake.mk [((5 : ℤ), (5 : ℤ))] (1, 0) false)
      (-1, -1) (12 / 100) false 0) [] rfl).2.2.2 rfl⟩

/-- C2: every food consumption adds exactly 10 to the score and applies
the clamped speed-up, a tick without consumption leaves both untouched,
and iterating the speed-up `n` times from the fresh-session value `0.12`
yields `max (0.03) (0.12 * 0.95 ^ n)` — in particular `0.114` after one
consumption. -/
theorem score_speed_spec :
    (∀ g draws, eats g →
      (tick g draws).score = g.score + 10 ∧
      (tick g draws).moveDelay = nextDelay g.moveDelay) ∧
    (∀ g draws, ¬ eats g →
      (tick g draws).score = g.score ∧
      (tick g draws).moveDelay = g.moveDelay) ∧
    (∀ n : ℕ, nextDelay^[n] (12 / 100)
      = max (3 / 100) ((12 / 100) * (95 / 100) ^ n)) ∧
    nextDelay (12 / 100) = 114 / 1000 := by
  refine ⟨fun g draws he => ?_, fun g draws hne => ?_, fun n => ?_, by
    rw [nextDelay]; norm_num⟩
  · obtain ⟨hgo, hov, hh⟩ := he
    rw [tick, if_neg (by simp [hgo]), if_pos ⟨hov, hh⟩]
    exact ⟨rfl, rfl⟩
  · by_cases hgo : g.gameOver
    · rw [tick, if_pos hgo]
      exact ⟨rfl, rfl⟩
    · have hcond : ¬ (postMoveOver g.snake.move = false ∧
          g.snake.move.headPos = g.food) :=
        fun hc => hne ⟨Bool.not_eq_true _ ▸ eq_false_of_ne_true hgo, hc.1, hc.2⟩
      rw [tick, if_neg hgo, if_neg hcond]
      exact ⟨rfl, rfl⟩
  · induction n with
    | zero =>
      rw [Function.iterate_zero_apply, pow_zero, mul_one,
        max_eq_right (by norm_num : (3 : ℚ) / 100 ≤ 12 / 100)]
    | succ m ih =>
      rw [Function.iterate_succ_apply', ih, nextDelay,
        max_mul_of_nonneg _ _ (by norm_num : (0 : ℚ) ≤ 95 / 100),
        ← max_assoc,
        max_eq_left (by norm_num : (3 : ℚ) / 100 * (95 / 100) ≤ 3 / 100)]
      rw [pow_succ]
      ring_nf

/-- C2 witness: a length-1 snake at `(5,5)` heading right with food at
`(6,5)` eats on the next tick (score `0 + 10`, interval `nextDelay 0.12`,
and `nextDelay 0.12 = 0.114`); with the food at `(7,7)` instead, the tick
leaves the score at 0. -/
theorem score_speed_spec_witness :
    (tick (GameState.mk (Snake.mk [((5 : ℤ), (5 : ℤ))] (1, 0) false)
        (6, 5) (12 / 100) false 0) [((0 : ℤ), (0 : ℤ))]).score = 0 + 10 ∧
    (tick (GameState.mk (Snake.mk [((5 : ℤ), (5 : ℤ))] (1, 0) false)
        (6, 5) (12 / 100) false 0) [((0 : ℤ), (0 : ℤ))]).moveDelay
      = nextDelay (12 / 100) ∧
    (tick (GameState.mk (Snake.mk [((5 : ℤ), (5 : ℤ))] (1, 0) false)
        (7, 7) (12 / 100) false 0) []).score = 0 ∧
    nextDelay (12 / 100) = 114 / 1000 :=
  ⟨(score_speed_spec.1 (GameState.mk (Snake.mk [((5 : ℤ), (5 : ℤ))] (1, 0) false)
      (6, 5) (12 / 100) false 0) [((0 : ℤ), (0 : ℤ))] (by decide)).1,
   (score_speed_spec.1 (GameState.mk (Snake.mk [((5 : ℤ), (5 : ℤ))] (1, 0) false)
      (6, 5) (12 / 100) false 0) [((0 : ℤ), (0 : ℤ))] (by decide)).2,
   (score_speed_spec.2.1 (GameState.mk (Snake.mk [((5 : ℤ), (5 : ℤ))] (1, 0) false)
      (7, 7) (12 / 100) false 0) [] (by decide)).1,
   score_speed_spec.2.2.2⟩

/-- Helper: once the state is game over and the in-memory high score is
not beaten, every further frame is the identity — the tick is gated on
`!gameOver` and the render block's guard `score > highscore` fails. -/
theorem runFrames_settled (m : ℕ) : ∀ (ds : ℕ → List Position × Bool) (b : App),
    b.game.gameOver = true → ¬ b.highscore < b.game.score →
    runFrames m ds b = b := by
  induction m with
  | zero => intro ds b _ _; rfl
  | succ k ih =>
    intro ds b hgo hhs
    have hframe : frame b (ds 0).1 (ds 0).2 = b := by
      rw [frame]
      have htick : (if (ds 0).2 then tick b.game (ds 0).1 else b.game) = b.game := by
        cases h2 : (ds 0).2
        · rfl
        · simp [tick, hgo]
      rw [htick]
      have heta : ({ b with game := b.game } : App) = b := rfl
      rw [heta, renderStep, if_pos hgo, if_neg hhs]
    rw [runFrames, hframe]
    exact ih _ b hgo hhs

/-- C3: on a transition into GameOver, `saveHighscore` is called exactly
once, and only when the session's score strictly exceeds the loaded high
score; the in-memory high score is updated on that same frame; and no
second save happens over any number of further frames spent in GameOver. -/
theorem gameover_save_once (a : App) (n : ℕ) (ds : ℕ → List Position × Bool)
    (hgo : a.game.gameOver = true) (hn : 1 ≤ n) :
    (runFrames n ds a).saves
        = a.saves ++ (if a.highscore < a.game.score then [a.game.score] else []) ∧
    (runFrames n ds a).highscore = max a.highscore a.game.score ∧
    (runFrames n ds a).game = a.game := by
  cases n with
  | zero => exact absurd hn (by simp)
  | succ m =>
    have hframe : frame a (ds 0).1 (ds 0).2 = renderStep a := by
      rw [frame]
      have htick : (if (ds 0).2 then tick a.game (ds 0).1 else a.game) = a.game := by
        cases h2 : (ds 0).2
        · rfl
        · simp [tick, hgo]
      rw [htick]
    rw [runFrames, hframe]
    by_cases hhs : a.highscore < a.game.score
    · have hrs : renderStep a
          = { a with highscore := a.game.score,
                     saves := a.saves ++ [a.game.score] } := by
        rw [renderStep, if_pos hgo, if_pos hhs]
      rw [hrs, runFrames_settled m (fun k => ds (k + 1))
        { a with highscore := a.game.score, saves := a.saves ++ [a.game.score] }
        hgo (lt_irrefl a.game.score)]
      exact ⟨by rw [if_pos hhs], (max_eq_right (le_of_lt hhs)).symm, rfl⟩
    · have hrs : renderStep a = a := by rw [renderStep, if_pos hgo, if_neg hhs]
      rw [hrs, runFrames_settled m _ a hgo hhs]
      exact ⟨by rw [if_neg hhs, List.append_nil],
        (max_eq_left (not_lt.mp hhs)).symm, rfl⟩

/-- C3 witness: a session ending at score 50 against high score 30 logs
exactly one save of 50 over three game-over frames and updates the
in-memory high score to 50. -/
theorem gameover_save_once_witness :
    (runFrames 3 (fun _ => ([], false))
        (App.mk (GameState.mk (Snake.mk [((5 : ℤ), (5 : ℤ))] (1, 0) false)
          (2, 2) (12 / 100) true 50) 30 [])).saves
      = [] ++ (if (30 : ℤ) < 50 then [(50 : ℤ)] else []) ∧
    (runFrames 3 (fun _ => ([], false))
        (App.mk (GameState.mk (Snake.mk [((5 : ℤ), (5 : ℤ))] (1, 0) false)
          (2, 2) (12 / 100) true 50) 30 [])).highscore = max 30 50 :=
  ⟨(gameover_save_once (App.mk (GameState.mk (Snake.mk [((5 : ℤ), (5 : ℤ))] (1, 0) false)
      (2, 2) (12 / 100) true 50) 30 []) 3 (fun _ => ([], false)) rfl
      (by norm_num)).1,
   (gameover_save_once (App.mk (GameState.mk (Snake.mk [((5 : ℤ), (5 : ℤ))] (1, 0) false)
      (2, 2) (12 / 100) true 50) 30 []) 3 (fun _ => ([], false)) rfl
      (by norm_num)).2.1⟩

/-- Helper: a tick from `(x, 15)` heading right with the next cell inside
the grid and food elsewhere just shifts the snake one cell right. -/
theorem tick_mkRight (x : ℤ) (food : Position) (d : List Position)
    (h0 : 0 ≤ x) (h1 : x + 1 < 40) (hf : food ≠ (x + 1, 15)) :
    tick (mkRight x food) d = mkRight (x + 1) food := by
  have hmove : (mkRight x food).snake.move
      = Snake.mk [((x + 1 : ℤ), (15 : ℤ))] (1, 0) false := by
    simp [mkRight, Snake.move, Snake.nextHead, Snake.headPos, Prod.ext_iff]
  have hgrid : inGrid ((x + 1 : ℤ), (15 : ℤ)) = true := by
    simp only [inGrid, COLS, ROWS, Bool.and_eq_true, decide_eq_true_eq]
    omega
  have hover : postMoveOver (Snake.mk [((x + 1 : ℤ), (15 : ℤ))] (1, 0) false)
      = false := by
    simp [postMoveOver, Snake.headPos, Snake.hitsSelf, hgrid]
  rw [tick, if_neg (show ¬ ((mkRight x food).gameOver = true) by simp [mkRight])]
  rw [hmove]
  rw [if_neg (show ¬ (postMoveOver (Snake.mk [((x + 1 : ℤ), (15 : ℤ))] (1, 0) false)
      = false ∧ (Snake.mk [((x + 1 : ℤ), (15 : ℤ))] (1, 0) false).headPos
        = (mkRight x food).food) by
    rintro ⟨-, hh⟩
    exact hf (by simpa [mkRight, Snake.headPos] using hh.symm))]
  rw [hover]
  rfl

/-- Helper: the last tick of a run can be peeled off the back. -/
theorem runTicks_succ_back (n : ℕ) : ∀ (ds : ℕ → List Position) (g : GameState),
    runTicks (n + 1) ds g = tick (runTicks n ds g) (ds n) := by
  induction n with
  | zero => intro ds g; rfl
  | succ m ih =>
    intro ds g
    show runTicks (m + 1) (fun k => ds (k + 1)) (tick g (ds 0))
      = tick (runTicks (m + 1) ds g) (ds (m + 1))
    rw [ih]
    conv_rhs => rw [runTicks]

/-- Helper: `k` in-bounds ticks heading right with food off the path move
the single-segment snake from `(x, 15)` to `(x + k, 15)` and change
nothing else. -/
theorem runTicks_mkRight (k : ℕ) : ∀ (x : ℤ) (ds : ℕ → List Position)
    (food : Position), 0 ≤ x → x + (k : ℤ) ≤ 39 →
    (∀ j : ℕ, (j : ℤ) < (k : ℤ) → food ≠ (x + 1 + (j : ℤ), 15)) →
    runTicks k ds (mkRight x food) = mkRight (x + (k : ℤ)) food := by
  induction k with
  | zero =>
    intro x ds food _ _ _
    show mkRight x food = mkRight (x + ((0 : ℕ) : ℤ)) food
    norm_num
  | succ m ih =>
    intro x ds food h0 h1 hfood
    rw [runTicks]
    rw [tick_mkRight x food (ds 0) h0 (by push_cast at h1 ⊢; omega)
      (by simpa using hfood 0 (by push_cast; omega))]
    rw [ih (x + 1) (fun k => ds (k + 1)) food (by omega)
      (by push_cast at h1 ⊢; omega)
      (fun j hj => by
        have h2 := hfood (j + 1) (by push_cast at hj ⊢; omega)
        intro he
        apply h2
        rw [he, Prod.mk.injEq]
        exact ⟨by push_cast; ring, rfl⟩)]
    have harith : x + 1 + (m : ℤ) = x + ((m + 1 : ℕ) : ℤ) := by push_cast; ring
    rw [harith]

/-- C4: on the 40×30 grid with the snake starting at `(20,15)` heading
`(1,0)` and the food off the straight path, repeated ticks with no
heading change leave the state playing with score 0 through tick 19 and
reach GameOver on tick 20 exactly, by wall collision with the head at
`x = 40`, with the score still 0. -/
theorem run_right_gameover (food : Position) (ds : ℕ → List Position)
    (hf : ∀ j : ℕ, j < 19 → food ≠ ((21 : ℤ) + (j : ℤ), (15 : ℤ))) :
    (runTicks 19 ds (initialState food)).gameOver = false ∧
    (runTicks 19 ds (initialState food)).score = 0 ∧
    (runTicks 20 ds (initialState food)).gameOver = true ∧
    (runTicks 20 ds (initialState food)).score = 0 ∧
    (runTicks 20 ds (initialState food)).snake.headPos = (40, 15) := by
  have hinit : initialState food = mkRight 20 food := rfl
  have h19 : runTicks 19 ds (initialState food) = mkRight 39 food := by
    rw [hinit, runTicks_mkRight 19 20 ds food (by norm_num) (by norm_num)
      (fun j hj => by
        have h2 := hf j (by exact_mod_cast hj)
        intro he
        apply h2
        rw [he, Prod.mk.injEq]
        exact ⟨by norm_num, rfl⟩)]
    norm_num
  have h39 : tick (mkRight 39 food) (ds 19)
      = GameState.mk (Snake.mk [((40 : ℤ), (15 : ℤ))] (1, 0) false)
        food (12 / 100) true 0 := by
    have hmove : (mkRight (39 : ℤ) food).snake.move
        = Snake.mk [((40 : ℤ), (15 : ℤ))] (1, 0) false := by
      simp [mkRight, Snake.move, Snake.nextHead, Snake.headPos, Prod.ext_iff]
    have hover : postMoveOver (Snake.mk [((40 : ℤ), (15 : ℤ))] (1, 0) false)
        = true := by decide
    rw [tick, if_neg (show ¬ ((mkRight (39 : ℤ) food).gameOver = true) by
      simp [mkRight])]
    rw [hmove]
    rw [if_neg (fun hc => by rw [hover] at hc; exact absurd hc.1 (by simp))]
    rw [hover]
    rfl
  have h20 : runTicks 20 ds (initialState food)
      = GameState.mk (Snake.mk [((40 : ℤ), (15 : ℤ))] (1, 0) false)
        food (12 / 100) true 0 := by
    rw [show (20 : ℕ) = 19 + 1 from rfl, runTicks_succ_back 19 ds
      (initialState food), h19, h39]
  exact ⟨by rw [h19]; rfl, by rw [h19]; rfl, by rw [h20], by rw [h20],
    by rw [h20]; rfl⟩

/-- C4 witness: with the food at `(0,0)`, tick 19 is still playing and
tick 20 is game over with score 0 and head at `(40,15)`. -/
theorem run_right_gameover_witness :
    (runTicks 19 (fun _ => []) (initialState ((0 : ℤ), (0 : ℤ)))).gameOver
        = false ∧
    (runTicks 20 (fun _ => []) (initialState ((0 : ℤ), (0 : ℤ)))).gameOver
        = true ∧
    (runTicks 20 (fun _ => []) (initialState ((0 : ℤ), (0 : ℤ)))).score = 0 ∧
    (runTicks 20 (fun _ => []) (initialState ((0 : ℤ), (0 : ℤ)))).snake.headPos
        = (40, 15) :=
  ⟨(run_right_gameover ((0 : ℤ), (0 : ℤ)) (fun _ => []) (by decide)).1,
   (run_right_gameover ((0 : ℤ), (0 : ℤ)) (fun _ => []) (by decide)).2.2.1,
   (run_right_gameover ((0 : ℤ), (0 : ℤ)) (fun _ => []) (by decide)).2.2.2.1,
   (run_right_gameover ((0 : ℤ), (0 : ℤ)) (fun _ => []) (by decide)).2.2.2.2⟩

end SnakeGame
